import Mathlib

/-!
Verification of the MCP permission client/host against its specification.

This file shallowly embeds the permission-evaluation and approval-lifecycle
core of the repository:

* `mcp_permission_client_base.py` — `MCPPermissionClient.check_permission`,
  `call_tool_with_permission`, `load_permissions`, `save_permissions`,
  `log_audit`;
* `mcp_permission_host_app.py` — `MCPPermissionHostApp.execute_tool` and the
  approval-resolution prefix of `MCPPermissionHostApp.chat`;
* `mcp_permission_client_app.py` — `MCPPermissionClientApp.gui_configure_permission`.

Modelling conventions:

* Python dicts of JSON arguments are assoc lists (`JFields`); JSON numbers are
  restricted to integers (the repository's tools take only string arguments).
* `json.dumps(..., sort_keys=True)` is `jdump` (keys sorted by code point, the
  default separators `", "` and `": "`); `json.dumps(..., indent=2)` is
  `jdumpInd`.  The `\uXXXX` escaping of exotic control and non-ASCII
  characters is elided; the common escapes are modelled.
* The permissions file is modelled by its parsed JSON content
  (`Option (List (String × String))`, `none` = file absent); the fidelity of
  Python's `json.dumps`/`json.loads` pair on flat string maps belongs to the
  external library.
* Audit records drop the wall-clock timestamp, which is external input.
* The MCP tool server is an external collaborator, modelled as an `Executor`
  that can fail (a raised exception is `Except.error`).  The executor
  invocations actually issued are collected in an `executed` trace.
* `user_message.strip().lower()` is `stripLower` (ASCII case folding; Python's
  full-Unicode folding is elided).
* The LLM completion loop in `chat` (everything after the approval/denial
  handling) is outside the core and is represented by the `fallthrough`
  outcome; conversation history is likewise omitted (no claim concerns it).
-/

/-! ## JSON values (Python dict/list/str/int/bool/None arguments) -/

mutual

inductive JVal : Type where
  | jnull : JVal
  | jbool : Bool → JVal
  | jnum : Int → JVal
  | jstr : String → JVal
  | jarr : JList → JVal
  | jobj : JFields → JVal

inductive JList : Type where
  | nil : JList
  | cons : JVal → JList → JList

inductive JFields : Type where
  | nil : JFields
  | cons : String → JVal → JFields → JFields

end

/-- A Python argument dict, i.e. the field list of a JSON object. -/
abbrev Args := JFields

/-- The field list of a JSON object as a Lean assoc list. -/
def JFields.toList : JFields → List (String × JVal)
  | .nil => []
  | .cons k v rest => (k, v) :: JFields.toList rest

/-- JSON string escaping as performed by Python's json.dumps (common escapes). -/
def escChar (c : Char) : String :=
  if c = '"' then "\\\"" else if c = '\\' then "\\\\"
  else if c = '\n' then "\\n" else if c = '\t' then "\\t" else if c = '\r' then "\\r"
  else String.singleton c

/-- Serialization of a JSON string literal, double-quoted and escaped. -/
def jstrDump (s : String) : String := "\"" ++ String.join (s.data.map escChar) ++ "\""

/-- Code-point lexicographic comparison of strings (as char lists), the order
Python uses to compare str keys under sort_keys=True. -/
def charListLE : List Char → List Char → Bool
  | [], _ => true
  | _ :: _, [] => false
  | a :: as, b :: bs =>
    if a < b then true
    else if b < a then false
    else charListLE as bs

/-- Ordering of serialized object entries by key. -/
def entryLE (a b : String × String) : Prop := charListLE a.1.data b.1.data = true

instance : DecidableRel entryLE := fun a b =>
  inferInstanceAs (Decidable (charListLE a.1.data b.1.data = true))

/-- Sorting of (key, serialized value) entries by key, as sort_keys=True does. -/
def sortEntries (l : List (String × String)) : List (String × String) :=
  List.insertionSort entryLE l

mutual

/-- The canonical serialization json.dumps(v, sort_keys=True): default
separators, object keys sorted recursively by code point. -/
def jdump : JVal → String
  | .jnull => "null"
  | .jbool true => "true"
  | .jbool false => "false"
  | .jnum n => toString n
  | .jstr s => jstrDump s
  | .jarr xs => "[" ++ String.intercalate ", " (jdumpList xs) ++ "]"
  | .jobj fs => "\x7b" ++ String.intercalate ", "
      ((sortEntries (jdumpFields fs)).map (fun e => jstrDump e.1 ++ ": " ++ e.2)) ++ "\x7d"

/-- Serialized items of a JSON array. -/
def jdumpList : JList → List String
  | .nil => []
  | .cons v rest => jdump v :: jdumpList rest

/-- Entries (key, serialized value) of a JSON object, in construction order. -/
def jdumpFields : JFields → List (String × String)
  | .nil => []
  | .cons k v rest => (k, jdump v) :: jdumpFields rest

end

/-- Indentation padding used by json.dumps(..., indent=2). -/
def pad (n : Nat) : String := String.mk (List.replicate n ' ')

mutual

/-- The pretty serialization json.dumps(v, indent=2): no key sorting,
construction order kept, two-space indentation. -/
def jdumpInd (ind : Nat) : JVal → String
  | .jnull => "null"
  | .jbool true => "true"
  | .jbool false => "false"
  | .jnum n => toString n
  | .jstr s => jstrDump s
  | .jarr .nil => "[]"
  | .jarr xs => "[\n" ++ String.intercalate ",\n" (jdumpIndList ind xs) ++
      "\n" ++ pad ind ++ "]"
  | .jobj .nil => "\x7b\x7d"
  | .jobj fs => "\x7b\n" ++ String.intercalate ",\n" (jdumpIndFields ind fs) ++
      "\n" ++ pad ind ++ "\x7d"

/-- Indented items of a JSON array. -/
def jdumpIndList (ind : Nat) : JList → List String
  | .nil => []
  | .cons v rest => (pad (ind + 2) ++ jdumpInd (ind + 2) v) :: jdumpIndList ind rest

/-- Indented entries of a JSON object. -/
def jdumpIndFields (ind : Nat) : JFields → List String
  | .nil => []
  | .cons k v rest =>
      (pad (ind + 2) ++ jstrDump k ++ ": " ++ jdumpInd (ind + 2) v) ::
        jdumpIndFields ind rest

end

/-! ## PermissionEvaluator (MCPPermissionClient.check_permission) -/

/-- The canonical argument serialization used for composite keys:
json.dumps(arguments, sort_keys=True). -/
def canonicalArgs (args : Args) : String := jdump (.jobj args)

/-- The composite policy key `tool_name + ":" + canonical arguments`. -/
def compositeKey (toolName : String) (args : Args) : String :=
  toolName ++ ":" ++ canonicalArgs args

/-- MCPPermissionClient.check_permission: look up the composite key, fall back
to the bare tool name, default "ask".  The permissions dict is an assoc list
(Python dict keys are unique; lookup takes the first match). -/
def checkPermission (perms : List (String × String)) (toolName : String)
    (args : Args) : String :=
  match List.lookup (compositeKey toolName args) perms with
  | some v => v
  | none => (List.lookup toolName perms).getD "ask"

/-! ## AuditLog and the tool mediator (call_tool_with_permission) -/

/-- One audit record: MCPPermissionClient.log_audit(operation, decision,
reason).  The ISO-8601 timestamp, being wall-clock input, is dropped. -/
structure AuditRecord where
  operation : String
  decision : String
  reason : String
deriving DecidableEq

/-- The external MCP tool server (session.call_tool): returns the list of text
contents of the result, or raises. -/
def Executor := String → Args → Except String (List String)

/-- Everything a call to call_tool_with_permission produces: the audit records
appended, the executor invocations issued, and the returned content texts (or
the exception propagated out of the executor). -/
structure CallOutcome where
  log : List AuditRecord
  executed : List (String × Args)
  result : Except String (List String)

/-- First line of the approval-request message. -/
def marker1 : String := "Permission required for tool:"

/-- The phrase of the approval-request message that execute_tool also scans
for when deciding to register a pending approval. -/
def marker2 : String := "Please approve this operation"

/-- The approval-request message returned by call_tool_with_permission on the
ask path (f-string at lines 134-138 of mcp_permission_client_base.py). -/
def approvalMsg (toolName : String) (args : Args) : String :=
  marker1 ++ " " ++ toolName ++ "\nArguments: " ++ jdumpInd 0 (.jobj args) ++
    "\n\nThis tool requires approval before execution.\n" ++ marker2 ++
    " in the GUI to proceed."

/-- MCPPermissionClient.call_tool_with_permission.  The source binds
`permission = self.check_permission(...)` once; being pure, the repeated calls
below are identical.  On the execute path the ALLOWED record is appended
before the executor runs, so it is present even when the executor raises. -/
def callToolWithPermission (perms : List (String × String)) (toolName : String)
    (args : Args) (approved : Bool) (exec : Executor) : CallOutcome :=
  if checkPermission perms toolName args = "deny" then
    { log := [⟨"TOOL: " ++ toolName, "DENIED", "Policy: deny"⟩], executed := [],
      result := .ok ["Permission denied for tool: " ++ toolName] }
  else if checkPermission perms toolName args = "ask" ∧ approved = false then
    { log := [⟨"TOOL: " ++ toolName, "ASK", "Awaiting approval"⟩], executed := [],
      result := .ok [approvalMsg toolName args] }
  else
    { log := [⟨"TOOL: " ++ toolName, "ALLOWED",
        "Policy: " ++ checkPermission perms toolName args⟩],
      executed := [(toolName, args)],
      result := exec toolName args }

/-! ## Host application state (MCPPermissionHostApp) -/

/-- Substring test (Python's `in` on str), decided on the char lists. -/
def strContains (s sub : String) : Bool := decide (sub.data <:+: s.data)

/-- The mutable state of MCPPermissionHostApp relevant to the claims:
the loaded permissions, the pending approval, the audit log so far, and the
trace of executor invocations issued so far. -/
structure HostState where
  permissions : List (String × String)
  pending : Option (String × Args)
  log : List AuditRecord
  executed : List (String × Args)

/-- The synthetic helper tools handled by execute_tool before any permission
checking. -/
def syntheticTools : List String :=
  ["mcp_list_resources", "mcp_read_resource", "mcp_list_prompts", "mcp_get_prompt"]

/-- Text extraction of execute_tool / chat: first content's text, or Python's
str() of an empty result list. -/
def headText : List String → String
  | m :: _ => m
  | [] => "[]"

/-- MCPPermissionHostApp.execute_tool for a tool call.  Synthetic helper tools
are answered by external collaborators (resource/prompt listings) without
permission checking; regular tools go through call_tool_with_permission, an
exception is caught and surfaced as an error string, and a returned text
carrying both approval-request markers registers the pending approval. -/
def executeTool (st : HostState) (toolName : String) (args : Args)
    (exec : Executor) (syntheticReply : String → Args → String) :
    HostState × String :=
  if toolName ∈ syntheticTools then (st, syntheticReply toolName args)
  else
    match callToolWithPermission st.permissions toolName args false exec with
    | oc =>
      match oc.result with
      | .error e =>
          ({ st with log := st.log ++ oc.log, executed := st.executed ++ oc.executed },
           "Error executing tool: " ++ e)
      | .ok msgs =>
        match msgs with
        | [] =>
            ({ st with log := st.log ++ oc.log, executed := st.executed ++ oc.executed },
             "[]")
        | m :: _ =>
          if strContains m marker1 && strContains m marker2 then
            ({ st with
                pending := some (toolName, args),
                log := st.log ++ oc.log,
                executed := st.executed ++ oc.executed }, m)
          else
            ({ st with log := st.log ++ oc.log, executed := st.executed ++ oc.executed },
             m)

/-- Python user_message.strip().lower() (ASCII case folding). -/
def asciiLower (c : Char) : Char :=
  if 'A' ≤ c ∧ c ≤ 'Z' then Char.ofNat (c.toNat + 32) else c

/-- Whitespace stripped by str.strip(). -/
def pyIsSpace (c : Char) : Bool :=
  c = ' ' || c = '\t' || c = '\n' || c = '\x0d' || c = '\x0b' || c = '\x0c'

/-- user_message.strip().lower(). -/
def stripLower (s : String) : String :=
  String.mk ((((s.data.dropWhile pyIsSpace).reverse.dropWhile pyIsSpace).reverse).map
    asciiLower)

/-- The fixed affirmative vocabulary of chat. -/
def affirmatives : List String := ["yes", "approve", "ok", "confirm", "y"]

/-- The fixed negative vocabulary of chat. -/
def negatives : List String := ["no", "deny", "cancel", "n"]

/-- How chat handled the user message: resolved by the approval logic with the
given reply, or fell through to the LLM completion loop (external). -/
inductive ChatOutcome where
  | handled : String → ChatOutcome
  | fallthrough : ChatOutcome
deriving DecidableEq

/-- The approval-resolution prefix of MCPPermissionHostApp.chat (lines
252-310).  On an affirmative reply the pending approval is cleared first, then
the stored call is re-submitted with approved=True inside a try/except; on a
negative reply the pending approval is cleared and a cancellation notice
returned; otherwise control falls through to the LLM loop. -/
def chat (st : HostState) (userMessage : String) (exec : Executor) :
    HostState × ChatOutcome :=
  match st.pending with
  | some (toolName, args) =>
    if stripLower userMessage ∈ affirmatives then
      match callToolWithPermission st.permissions toolName args true exec with
      | oc =>
        match oc.result with
        | .ok msgs =>
            ({ st with
                pending := none,
                log := st.log ++ oc.log,
                executed := st.executed ++ oc.executed },
             .handled ("Operation approved and executed.\n\n" ++ headText msgs))
        | .error e =>
            ({ st with
                pending := none,
                log := st.log ++ oc.log,
                executed := st.executed ++ oc.executed },
             .handled ("Error executing approved operation: " ++ e))
    else if stripLower userMessage ∈ negatives then
      ({ st with pending := none }, .handled "Operation cancelled by user.")
    else (st, .fallthrough)
  | none => (st, .fallthrough)

/-! ## PolicyStore persistence (MCPPermissionClientApp) -/

/-- The state of MCPPermissionClientApp relevant to persistence: the in-memory
permissions and the parsed content of permissions.json (none = absent). -/
structure ClientState where
  permissions : List (String × String)
  file : Option (List (String × String))

/-- The baseline defaults of MCPPermissionClient.load_permissions. -/
def defaultPermissions : List (String × String) :=
  [("read_file", "allow"), ("write_file", "ask"),
   ("delete_file", "deny"), ("execute_command", "deny")]

/-- MCPPermissionClient.load_permissions: parse the file if it exists,
otherwise the defaults. -/
def loadPermissions (file : Option (List (String × String))) :
    List (String × String) :=
  match file with
  | some m => m
  | none => defaultPermissions

/-- Python dict assignment d[k] = v on an assoc list with unique keys:
replace in place or append. -/
def setKey : List (String × String) → String → String → List (String × String)
  | [], k, v => [(k, v)]
  | (k', v') :: rest, k, v =>
      if k' = k then (k, v) :: rest else (k', v') :: setKey rest k v

/-- MCPPermissionClientApp.gui_configure_permission: validate, mutate the
permissions dict, and synchronously persist via save_permissions. -/
def guiConfigurePermission (st : ClientState) (toolName policy : String) :
    ClientState × String :=
  if toolName = "" then (st, "Please enter a tool name")
  else if ¬ policy ∈ (["allow", "deny", "ask"] : List String) then
    (st, "Policy must be: allow, deny, or ask")
  else
    ({ permissions := setKey st.permissions toolName policy,
       file := some (setKey st.permissions toolName policy) },
     "Permission updated: " ++ toolName ++ " = " ++ policy ++
       "\nPermissions saved to data/permissions.json")

theorem charListLE_total (as bs : List Char) :
    charListLE as bs = true ∨ charListLE bs as = true := by
  induction as generalizing bs with
  | nil => left; rfl
  | cons a as ih =>
    cases bs with
    | nil => right; rfl
    | cons b bs =>
      by_cases h1 : a < b
      · left; simp [charListLE, h1]
      · by_cases h2 : b < a
        · right; simp [charListLE, h2]
        · rcases ih bs with h | h
          · left; simp [charListLE, h1, h2, h]
          · right; simp [charListLE, h1, h2, h]

theorem charListLE_trans (as bs cs : List Char) (h1 : charListLE as bs = true)
    (h2 : charListLE bs cs = true) : charListLE as cs = true := by
  induction as generalizing bs cs with
  | nil => rfl
  | cons a as ih =>
    cases bs with
    | nil => simp [charListLE] at h1
    | cons b bs =>
      cases cs with
      | nil => simp [charListLE] at h2
      | cons c cs =>
        by_cases hab : a < b
        · by_cases hbc : b < c
          · simp [charListLE, lt_trans hab hbc]
          · by_cases hcb : c < b
            · simp [charListLE, hbc, hcb] at h2
            · have hbc2 : b = c := le_antisymm (not_lt.mp hcb) (not_lt.mp hbc)
              subst hbc2
              simp [charListLE, hab]
        · by_cases hba : b < a
          · simp [charListLE, hab, hba] at h1
          · have hab2 : a = b := le_antisymm (not_lt.mp hba) (not_lt.mp hab)
            subst hab2
            by_cases hbc : a < c
            · simp [charListLE, hbc]
            · by_cases hcb : c < a
              · simp [charListLE, hbc, hcb] at h2
              · simp [charListLE, hab, hbc, hcb] at h1 h2 ⊢
                exact ih bs cs h1 h2

theorem charListLE_antisymm (as bs : List Char) (h1 : charListLE as bs = true)
    (h2 : charListLE bs as = true) : as = bs := by
  induction as generalizing bs with
  | nil =>
    cases bs with
    | nil => rfl
    | cons b bs => simp [charListLE] at h2
  | cons a as ih =>
    cases bs with
    | nil => simp [charListLE] at h1
    | cons b bs =>
      by_cases hab : a < b
      · simp [charListLE, lt_asymm hab, hab] at h2
      · by_cases hba : b < a
        · simp [charListLE, hab, hba] at h1
        · have hab2 : a = b := le_antisymm (not_lt.mp hba) (not_lt.mp hab)
          subst hab2
          simp [charListLE, hab] at h1 h2
          rw [ih bs h1 h2]

instance : IsTotal (String × String) entryLE :=
  ⟨fun a b => charListLE_total a.1.data b.1.data⟩

instance : IsTrans (String × String) entryLE :=
  ⟨fun a b c h1 h2 => charListLE_trans a.1.data b.1.data c.1.data h1 h2⟩

def entryLT (a b : String × String) : Prop := entryLE a b ∧ ¬ a.1 = b.1

instance : IsAntisymm (String × String) entryLT :=
  ⟨fun a b h1 h2 => by
    have hd : a.1.data = b.1.data := charListLE_antisymm _ _ h1.1 h2.1
    have : a.1 = b.1 := by
      rcases a with ⟨⟨da⟩, _⟩
      rcases b with ⟨⟨db⟩, _⟩
      simp only at hd
      simp [hd]
    exact absurd this h1.2⟩

theorem sortEntries_eq_of_perm (l1 l2 : List (String × String)) (h : l1.Perm l2)
    (hnd : (l1.map Prod.fst).Nodup) : sortEntries l1 = sortEntries l2 := by
  have hp : (sortEntries l1).Perm (sortEntries l2) :=
    (List.perm_insertionSort entryLE l1).trans
      (h.trans (List.perm_insertionSort entryLE l2).symm)
  have hnd2 : (l2.map Prod.fst).Nodup := ((h.map Prod.fst).nodup_iff).mp hnd
  have hpw1 : (sortEntries l1).Pairwise (fun a b => ¬ a.1 = b.1) := by
    have : ((sortEntries l1).map Prod.fst).Nodup :=
      (((List.perm_insertionSort entryLE l1).map Prod.fst).nodup_iff).mpr hnd
    simpa [List.Nodup, List.pairwise_map] using this
  have hpw2 : (sortEntries l2).Pairwise (fun a b => ¬ a.1 = b.1) := by
    have : ((sortEntries l2).map Prod.fst).Nodup :=
      (((List.perm_insertionSort entryLE l2).map Prod.fst).nodup_iff).mpr hnd2
    simpa [List.Nodup, List.pairwise_map] using this
  have hs1 : (sortEntries l1).Pairwise entryLT :=
    (List.sorted_insertionSort entryLE l1).and hpw1
  have hs2 : (sortEntries l2).Pairwise entryLT :=
    (List.sorted_insertionSort entryLE l2).and hpw2
  exact List.eq_of_perm_of_sorted hp hs1 hs2

theorem jdumpFields_eq_map : (fs : JFields) →
    jdumpFields fs = fs.toList.map (fun p => (p.1, jdump p.2))
  | .nil => rfl
  | .cons k v rest => by
      simp [jdumpFields, JFields.toList, jdumpFields_eq_map rest]

theorem jdumpFields_map_fst : (fs : JFields) →
    (jdumpFields fs).map Prod.fst = fs.toList.map Prod.fst
  | .nil => rfl
  | .cons k v rest => by
      simp [jdumpFields, JFields.toList, jdumpFields_map_fst rest]

theorem canonicalArgs_eq_of_perm (fs1 fs2 : JFields)
    (hperm : fs1.toList.Perm fs2.toList)
    (hnd : (fs1.toList.map Prod.fst).Nodup) :
    canonicalArgs fs1 = canonicalArgs fs2 := by
  have hpe : (jdumpFields fs1).Perm (jdumpFields fs2) := by
    rw [jdumpFields_eq_map fs1, jdumpFields_eq_map fs2]
    exact hperm.map _
  have hnde : ((jdumpFields fs1).map Prod.fst).Nodup := by
    rw [jdumpFields_map_fst]; exact hnd
  unfold canonicalArgs
  show jdump (.jobj fs1) = jdump (.jobj fs2)
  unfold jdump
  rw [sortEntries_eq_of_perm _ _ hpe hnde]

theorem strContains_append_left (a b sub : String)
    (h : strContains a sub = true) : strContains (a ++ b) sub = true := by
  have h2 := of_decide_eq_true h
  obtain ⟨s, t, hst⟩ := h2
  refine decide_eq_true ?_
  refine ⟨s, t ++ b.data, ?_⟩
  rw [String.data_append, ← hst]
  simp

theorem strContains_append_right (a b sub : String)
    (h : strContains b sub = true) : strContains (a ++ b) sub = true := by
  have h2 := of_decide_eq_true h
  obtain ⟨s, t, hst⟩ := h2
  refine decide_eq_true ?_
  refine ⟨a.data ++ s, t, ?_⟩
  rw [String.data_append, ← hst]
  simp

theorem strContains_self (s : String) : strContains s s = true := by
  refine decide_eq_true ?_
  exact ⟨[], [], by simp⟩

theorem approvalMsg_markers (toolName : String) (args : Args) :
    strContains (approvalMsg toolName args) marker1 = true ∧
    strContains (approvalMsg toolName args) marker2 = true := by
  unfold approvalMsg
  constructor
  · exact strContains_append_left _ _ _ (strContains_append_left _ _ _
      (strContains_append_left _ _ _ (strContains_append_left _ _ _
        (strContains_append_left _ _ _ (strContains_append_left _ _ _
          (strContains_append_left _ _ _ (strContains_self _)))))))
  · exact strContains_append_left _ _ _ (strContains_append_right _ _ _
      (strContains_self _))

/-- C4: permission evaluation looks up the composite key first, then the bare
tool name, then defaults to "ask"; the composite lookup always precedes the
bare lookup and the first match wins. -/
theorem C4_lookup_precedence (perms : List (String × String)) (toolName : String)
    (args : Args) (v : String) :
    (List.lookup (compositeKey toolName args) perms = some v →
      checkPermission perms toolName args = v)
    ∧ (List.lookup (compositeKey toolName args) perms = none →
        List.lookup toolName perms = some v →
        checkPermission perms toolName args = v)
    ∧ (List.lookup (compositeKey toolName args) perms = none →
        List.lookup toolName perms = none →
        checkPermission perms toolName args = "ask") := by
  unfold checkPermission
  refine ⟨fun h1 => ?_, fun h1 h2 => ?_, fun h1 h2 => ?_⟩
  · rw [h1]
  · rw [h1, h2]; rfl
  · rw [h1, h2]; rfl

/-- C4 witness: with both a composite-key entry and a bare entry present, the
composite entry wins. -/
theorem C4_lookup_witness :
    checkPermission [("t:\x7b\x7d", "deny"), ("t", "allow")] "t" .nil = "deny" :=
  (C4_lookup_precedence [("t:\x7b\x7d", "deny"), ("t", "allow")] "t" .nil "deny").1 rfl

/-- C6: a "deny" verdict never invokes the executor (whatever the approved
flag), appends exactly one DENIED record, and returns a rejection naming the
tool. -/
theorem C6_deny_path (perms : List (String × String)) (toolName : String)
    (args : Args) (approved : Bool) (exec : Executor)
    (h : checkPermission perms toolName args = "deny") :
    (callToolWithPermission perms toolName args approved exec).executed = []
    ∧ (callToolWithPermission perms toolName args approved exec).log =
        [⟨"TOOL: " ++ toolName, "DENIED", "Policy: deny"⟩]
    ∧ (callToolWithPermission perms toolName args approved exec).result =
        .ok ["Permission denied for tool: " ++ toolName] := by
  simp [callToolWithPermission, h]

/-- C6 witness at a concrete denied call. -/
theorem C6_deny_witness :
    (callToolWithPermission [("delete_file", "deny")] "delete_file" .nil false
        (fun _ _ => .ok ["gone"])).executed = []
    ∧ (callToolWithPermission [("delete_file", "deny")] "delete_file" .nil false
        (fun _ _ => .ok ["gone"])).result =
        .ok ["Permission denied for tool: delete_file"] :=
  ⟨(C6_deny_path [("delete_file", "deny")] "delete_file" .nil false
      (fun _ _ => .ok ["gone"]) rfl).1,
   (C6_deny_path [("delete_file", "deny")] "delete_file" .nil false
      (fun _ _ => .ok ["gone"]) rfl).2.2⟩

/-- C1 counterexample: a pending call re-submitted with approved=true is NOT
executed when the current verdict is "deny" — the executor is never invoked
and a DENIED record and rejection are produced instead, contradicting the
claim that approval executes the stored call regardless of the verdict. -/
theorem C1_counterexample :
    (callToolWithPermission [("t", "deny")] "t" .nil true
        (fun _ _ => .ok ["ran"])).executed = []
    ∧ (callToolWithPermission [("t", "deny")] "t" .nil true
        (fun _ _ => .ok ["ran"])).log =
        [⟨"TOOL: t", "DENIED", "Policy: deny"⟩]
    ∧ (callToolWithPermission [("t", "deny")] "t" .nil true
        (fun _ _ => .ok ["ran"])).result =
        .ok ["Permission denied for tool: t"] :=
  ⟨rfl, rfl, rfl⟩

/-- C1 amended: a request with approved=true still re-evaluates the policy;
the flag forces execution past any verdict other than "deny" (in particular
past "ask"), but a current "deny" verdict blocks execution. -/
theorem C1_approved_still_reevaluates (perms : List (String × String))
    (toolName : String) (args : Args) (exec : Executor) :
    (callToolWithPermission perms toolName args true exec).executed =
      (if checkPermission perms toolName args = "deny" then []
       else [(toolName, args)]) := by
  by_cases h : checkPermission perms toolName args = "deny"
  · simp [callToolWithPermission, h]
  · simp [callToolWithPermission, h]

/-- C7: canonicalization is insensitive to the construction order of the
argument dict (same keys, same values), so evaluation agrees on both. -/
theorem C7_canonical_order_independent (fs1 fs2 : JFields)
    (hperm : fs1.toList.Perm fs2.toList)
    (hnd : (fs1.toList.map Prod.fst).Nodup) :
    canonicalArgs fs1 = canonicalArgs fs2
    ∧ ∀ (perms : List (String × String)) (toolName : String),
        checkPermission perms toolName fs1 = checkPermission perms toolName fs2 := by
  have hc : canonicalArgs fs1 = canonicalArgs fs2 :=
    canonicalArgs_eq_of_perm fs1 fs2 hperm hnd
  refine ⟨hc, fun perms toolName => ?_⟩
  unfold checkPermission compositeKey
  rw [hc]

/-- C7 witness: the two insertion orders of a two-key dict canonicalize
identically. -/
theorem C7_canonical_witness :
    canonicalArgs (.cons "a" (.jnum 1) (.cons "b" (.jnum 2) .nil)) =
      canonicalArgs (.cons "b" (.jnum 2) (.cons "a" (.jnum 1) .nil)) :=
  (C7_canonical_order_independent
    (.cons "a" (.jnum 1) (.cons "b" (.jnum 2) .nil))
    (.cons "b" (.jnum 2) (.cons "a" (.jnum 1) .nil))
    (List.Perm.swap _ _ _) (by decide)).1

/-- C5: an "ask" verdict with approved=false never invokes the executor,
appends exactly one ASK record with reason "Awaiting approval", returns the
approval-request message, and execute_tool registers the pending approval for
that tool and arguments. -/
theorem C5_ask_path (st : HostState) (toolName : String) (args : Args)
    (exec : Executor) (synth : String → Args → String)
    (hv : checkPermission st.permissions toolName args = "ask")
    (hs : toolName ∉ syntheticTools) :
    (executeTool st toolName args exec synth).1.executed = st.executed
    ∧ (executeTool st toolName args exec synth).1.log =
        st.log ++ [⟨"TOOL: " ++ toolName, "ASK", "Awaiting approval"⟩]
    ∧ (executeTool st toolName args exec synth).1.pending = some (toolName, args)
    ∧ (executeTool st toolName args exec synth).2 = approvalMsg toolName args := by
  have hm := approvalMsg_markers toolName args
  simp [executeTool, hs, callToolWithPermission, hv, hm.1, hm.2]

/-- C5 witness: a concrete ask-verdict call is paused, logged ASK, and the
pending approval registered. -/
theorem C5_ask_witness :
    (executeTool ⟨[("write_file", "ask")], none, [], []⟩ "write_file" .nil
        (fun _ _ => .ok ["done"]) (fun _ _ => "")).1.pending =
      some ("write_file", .nil)
    ∧ (executeTool ⟨[("write_file", "ask")], none, [], []⟩ "write_file" .nil
        (fun _ _ => .ok ["done"]) (fun _ _ => "")).1.executed = [] :=
  ⟨(C5_ask_path ⟨[("write_file", "ask")], none, [], []⟩ "write_file" .nil
      (fun _ _ => .ok ["done"]) (fun _ _ => "") rfl (by decide)).2.2.1,
   (C5_ask_path ⟨[("write_file", "ask")], none, [], []⟩ "write_file" .nil
      (fun _ _ => .ok ["done"]) (fun _ _ => "") rfl (by decide)).1⟩

theorem errorMsg_ne_denialMsg (e t : String) :
    ("Error executing tool: " ++ e) ≠ ("Permission denied for tool: " ++ t) := by
  intro h
  have h2 := congrArg String.data h
  rw [String.data_append, String.data_append] at h2
  have e1 : ("Error executing tool: " : String).data =
      'E' :: ("rror executing tool: " : String).data := rfl
  have e2 : ("Permission denied for tool: " : String).data =
      'P' :: ("ermission denied for tool: " : String).data := rfl
  rw [e1, e2] at h2
  simp at h2

/-- C9: on the execution path the ALLOWED record is appended independently of
the executor's outcome, so an executor fault cannot erase the recorded
authorization; the fault is surfaced as an execution-error message distinct
from a policy rejection. -/
theorem C9_allowed_logged_despite_fault (st : HostState) (toolName : String)
    (args : Args) (exec : Executor) (synth : String → Args → String) (e : String)
    (hs : toolName ∉ syntheticTools)
    (hv : checkPermission st.permissions toolName args = "allow")
    (hf : exec toolName args = .error e) :
    (∀ exec2 : Executor,
      (callToolWithPermission st.permissions toolName args false exec2).log =
        [⟨"TOOL: " ++ toolName, "ALLOWED", "Policy: allow"⟩])
    ∧ (executeTool st toolName args exec synth).1.log =
        st.log ++ [⟨"TOOL: " ++ toolName, "ALLOWED", "Policy: allow"⟩]
    ∧ (executeTool st toolName args exec synth).1.executed =
        st.executed ++ [(toolName, args)]
    ∧ (executeTool st toolName args exec synth).2 = "Error executing tool: " ++ e
    ∧ ∀ e2 t2 : String,
        ("Error executing tool: " ++ e2) ≠ ("Permission denied for tool: " ++ t2) := by
  refine ⟨fun exec2 => ?_, ?_, ?_, ?_, fun e2 t2 => errorMsg_ne_denialMsg e2 t2⟩
  · simp [callToolWithPermission, hv]
  · simp [executeTool, hs, callToolWithPermission, hv, hf]
  · simp [executeTool, hs, callToolWithPermission, hv, hf]
  · simp [executeTool, hs, callToolWithPermission, hv, hf]

/-- C9 witness: a concrete allowed call whose executor raises still leaves the
ALLOWED record in the log and surfaces an execution error. -/
theorem C9_allowed_witness :
    (executeTool ⟨[("read_file", "allow")], none, [], []⟩ "read_file" .nil
        (fun _ _ => .error "boom") (fun _ _ => "")).1.log =
      [⟨"TOOL: read_file", "ALLOWED", "Policy: allow"⟩]
    ∧ (executeTool ⟨[("read_file", "allow")], none, [], []⟩ "read_file" .nil
        (fun _ _ => .error "boom") (fun _ _ => "")).2 =
      "Error executing tool: boom" := by
  have h := C9_allowed_logged_despite_fault ⟨[("read_file", "allow")], none, [], []⟩
    "read_file" .nil (fun _ _ => .error "boom") (fun _ _ => "") "boom"
    (by decide) rfl rfl
  exact ⟨h.2.1, h.2.2.2.1⟩

theorem negative_not_affirmative (m : String) (h : m ∈ negatives) :
    m ∉ affirmatives := by
  fin_cases h <;> decide

/-- C2 counterexample: on an affirmative reply to a pending approval, the one
ALLOWED record appended carries reason "Policy: ask", which names the stored
policy verdict and contains no mention of approval at all — contradicting the
claim that the reason indicates the execution was approved by the user. -/
theorem C2_counterexample :
    (chat ⟨[("write_file", "ask")], some ("write_file", .nil), [], []⟩ "yes"
        (fun _ _ => .ok ["done"])).1.log =
      [⟨"TOOL: write_file", "ALLOWED", "Policy: ask"⟩]
    ∧ strContains "Policy: ask" "approv" = false
    ∧ strContains "Policy: ask" "Approv" = false
    ∧ strContains "Policy: ask" "user" = false :=
  ⟨rfl, rfl, rfl, rfl⟩

/-- C2 amended: an affirmative reply to a pending approval clears the pending
state and, provided the re-evaluated verdict for the stored call is not
"deny", executes it exactly once and appends exactly one ALLOWED record —
whose reason is "Policy: " followed by the stored verdict, not a statement of
user approval. -/
theorem C2_affirmative_executes_once (st : HostState) (toolName : String)
    (args : Args) (msg : String) (exec : Executor)
    (hp : st.pending = some (toolName, args))
    (hm : stripLower msg ∈ affirmatives)
    (hv : ¬ checkPermission st.permissions toolName args = "deny") :
    (chat st msg exec).1.pending = none
    ∧ (chat st msg exec).1.executed = st.executed ++ [(toolName, args)]
    ∧ (chat st msg exec).1.log = st.log ++
        [⟨"TOOL: " ++ toolName, "ALLOWED",
          "Policy: " ++ checkPermission st.permissions toolName args⟩] := by
  unfold chat
  rw [hp]
  simp only [hm, if_pos]
  cases hx : exec toolName args <;>
    simp [callToolWithPermission, hv, hx]

/-- C2 witness: a concrete affirmative reply executes the pending call once
and logs one ALLOWED record. -/
theorem C2_affirmative_witness :
    (chat ⟨[("write_file", "ask")], some ("write_file", .nil), [], []⟩ " Yes "
        (fun _ _ => .ok ["written"])).1.executed = [("write_file", JFields.nil)]
    ∧ (chat ⟨[("write_file", "ask")], some ("write_file", .nil), [], []⟩ " Yes "
        (fun _ _ => .ok ["written"])).1.pending = none := by
  have h := C2_affirmative_executes_once
    ⟨[("write_file", "ask")], some ("write_file", .nil), [], []⟩
    "write_file" .nil " Yes " (fun _ _ => .ok ["written"]) rfl (by decide)
    (by decide)
  exact ⟨h.2.1, h.1⟩

/-- C3 counterexample: a negative reply to a pending approval leaves the audit
log untouched — no cancellation record is appended, contradicting the claim
that the cancellation is logged. -/
theorem C3_counterexample :
    (chat ⟨[("write_file", "ask")], some ("write_file", .nil), [], []⟩ "no"
        (fun _ _ => .ok ["done"])).1.log = []
    ∧ (chat ⟨[("write_file", "ask")], some ("write_file", .nil), [], []⟩ "no"
        (fun _ _ => .ok ["done"])).2 =
      .handled "Operation cancelled by user." :=
  ⟨rfl, rfl⟩

/-- C3 amended: a negative reply to a pending approval executes no tool,
clears the pending state, and returns a cancellation notice, but appends no
audit record at all (in particular no ALLOWED record): the cancellation is
not logged. -/
theorem C3_negative_clears_silently (st : HostState) (toolName : String)
    (args : Args) (msg : String) (exec : Executor)
    (hp : st.pending = some (toolName, args))
    (hm : stripLower msg ∈ negatives) :
    (chat st msg exec).1.pending = none
    ∧ (chat st msg exec).1.executed = st.executed
    ∧ (chat st msg exec).1.log = st.log
    ∧ (chat st msg exec).2 = .handled "Operation cancelled by user." := by
  unfold chat
  rw [hp]
  simp [negative_not_affirmative _ hm, hm]

/-- C3 witness: a concrete negative reply cancels without executing. -/
theorem C3_negative_witness :
    (chat ⟨[("delete_file", "ask")], some ("delete_file", .nil), [], []⟩ "No"
        (fun _ _ => .ok ["done"])).1.pending = none
    ∧ (chat ⟨[("delete_file", "ask")], some ("delete_file", .nil), [], []⟩ "No"
        (fun _ _ => .ok ["done"])).1.executed = [] := by
  have h := C3_negative_clears_silently
    ⟨[("delete_file", "ask")], some ("delete_file", .nil), [], []⟩
    "delete_file" .nil "No" (fun _ _ => .ok ["done"]) rfl (by decide)
  exact ⟨h.1, h.2.1⟩

/-- C10: on an affirmative reply the pending approval is cleared even when the
approved execution raises, and once no approval is pending a further reply is
treated as an ordinary message: it resolves nothing and changes no state. -/
theorem C10_pending_cleared_first (st : HostState) (toolName : String)
    (args : Args) (msg : String) (exec : Executor)
    (hp : st.pending = some (toolName, args))
    (hm : stripLower msg ∈ affirmatives) :
    (chat st msg exec).1.pending = none
    ∧ ∀ (st2 : HostState) (msg2 : String) (exec2 : Executor),
        st2.pending = none → chat st2 msg2 exec2 = (st2, .fallthrough) := by
  constructor
  · unfold chat
    rw [hp]
    simp only [hm, if_pos]
    by_cases hv : checkPermission st.permissions toolName args = "deny" <;>
      cases hx : exec toolName args <;>
        simp [callToolWithPermission, hv, hx]
  · intro st2 msg2 exec2 h2
    unfold chat
    rw [h2]

/-- C10 witness: even with an executor that raises, the affirmative reply
leaves no pending approval, and a repeated "yes" afterwards falls through
without re-executing. -/
theorem C10_pending_witness :
    (chat ⟨[("write_file", "ask")], some ("write_file", .nil), [], []⟩ "yes"
        (fun _ _ => .error "boom")).1.pending = none
    ∧ chat ⟨[("write_file", "ask")], none, [],
        [("write_file", JFields.nil)]⟩ "yes" (fun _ _ => .error "boom") =
      (⟨[("write_file", "ask")], none, [], [("write_file", JFields.nil)]⟩,
       .fallthrough) := by
  have h := C10_pending_cleared_first
    ⟨[("write_file", "ask")], some ("write_file", .nil), [], []⟩
    "write_file" .nil "yes" (fun _ _ => .error "boom") rfl (by decide)
  exact ⟨h.1, h.2 _ "yes" (fun _ _ => .error "boom") rfl⟩

theorem lookup_setKey (m : List (String × String)) (k v : String) :
    List.lookup k (setKey m k v) = some v := by
  induction m with
  | nil => simp [setKey, List.lookup]
  | cons hd tl ih =>
    by_cases h : hd.1 = k
    · simp [setKey, h, List.lookup]
    · have hb : (k == hd.1) = false := by
        simp only [beq_eq_false_iff_ne, ne_eq]
        exact fun he => h he.symm
      simp [setKey, h, List.lookup, hb, ih]

/-- C8: setting a verdict through the set-policy operation persists it
synchronously; reloading a fresh store from the same storage yields the same
permissions map, which maps the set key to the set verdict, and evaluation on
the reloaded store agrees with the in-memory store everywhere. -/
theorem C8_persistence_roundtrip (st : ClientState) (k v : String)
    (hk : ¬ k = "") (hv : v ∈ (["allow", "deny", "ask"] : List String)) :
    loadPermissions ((guiConfigurePermission st k v).1.file) =
        (guiConfigurePermission st k v).1.permissions
    ∧ List.lookup k (loadPermissions ((guiConfigurePermission st k v).1.file)) = some v
    ∧ ∀ (toolName : String) (args : Args),
        checkPermission (loadPermissions ((guiConfigurePermission st k v).1.file))
            toolName args
          = checkPermission ((guiConfigurePermission st k v).1.permissions)
            toolName args := by
  simp only [guiConfigurePermission, if_neg hk, if_neg (not_not_intro hv)]
  exact ⟨rfl, lookup_setKey st.permissions k v, fun toolName args => rfl⟩

/-- C8 witness: a concrete set-and-reload returns the set verdict. -/
theorem C8_persistence_witness :
    List.lookup "write_file"
        (loadPermissions ((guiConfigurePermission ⟨defaultPermissions, none⟩
          "write_file" "allow").1.file)) = some "allow" :=
  (C8_persistence_roundtrip ⟨defaultPermissions, none⟩ "write_file" "allow"
    (by decide) (by decide)).2.1
